import Mathlib

/-!
Verification of the `vscode-azurefunctions` fragments in `SlotTreeItemBase.ts`
and `PythonInitVSCodeStep.ts`.

The file shallowly embeds:
* the ignore-file merge helpers `ensureGitIgnoreContents` and
  `ensureVenvInFuncIgnore` (file-system effects made explicit: each function
  receives the current content of its target file as `Option String`, `none`
  meaning the file does not exist, and returns the resulting content together
  with a flag recording whether `fse.writeFile` was invoked);
* the `SlotTreeItemBase` node: its three metadata caches, `refreshImpl`,
  `getVersion`, `getHostJson`, `getIsConsumption`, `loadMoreChildrenImpl` and
  `pickTreeItemImpl`.  Remote calls are modelled by an environment of
  call-indexed response streams, and each endpoint keeps a fetch counter in
  the node state so "number of remote fetches" is observable;
* the `PythonInitVSCodeStep.getTasks` task builder.
-/

namespace VSCodeAzureFunc

/-! ## String `includes` (JavaScript substring containment) -/

/-- `startsWithL needle hay` is JavaScript-style "hay starts with needle"
on character lists. -/
def startsWithL : List Char → List Char → Bool
  | [], _ => true
  | _ :: _, [] => false
  | a :: as, b :: bs => a = b && startsWithL as bs

/-- `containsSub needle hay`: `needle` occurs as a contiguous substring of
`hay`; embeds JavaScript `hay.includes(needle)`. -/
def containsSub (needle : List Char) : List Char → Bool
  | [] => startsWithL needle []
  | b :: bs => startsWithL needle (b :: bs) || containsSub needle bs

/-- JavaScript `hay.includes(needle)` on Lean strings. -/
def strIncludes (hay needle : String) : Bool :=
  containsSub needle.data hay.data

theorem startsWithL_refl (l : List Char) : startsWithL l l = true := by
  induction l with
  | nil => rfl
  | cons a as ih => simp [startsWithL, ih]

theorem startsWithL_append (n h t : List Char) (hn : startsWithL n h = true) :
    startsWithL n (h ++ t) = true := by
  induction n generalizing h with
  | nil => rfl
  | cons a as ih =>
    cases h with
    | nil => simp [startsWithL] at hn
    | cons b bs =>
      simp only [startsWithL, Bool.and_eq_true, decide_eq_true_eq] at hn
      simp only [List.cons_append, startsWithL, Bool.and_eq_true, decide_eq_true_eq]
      exact ⟨hn.1, ih bs hn.2⟩

theorem containsSub_append_right (n h t : List Char)
    (hn : containsSub n h = true) : containsSub n (h ++ t) = true := by
  induction h with
  | nil =>
    cases n with
    | nil =>
      cases t with
      | nil => rfl
      | cons b bs => simp [containsSub, startsWithL]
    | cons a as => simp [containsSub, startsWithL] at hn
  | cons b bs ih =>
    simp only [containsSub, Bool.or_eq_true] at hn
    rcases hn with hn | hn
    · simp only [List.cons_append, containsSub, Bool.or_eq_true]
      exact Or.inl (startsWithL_append n (b :: bs) t hn)
    · simp only [List.cons_append, containsSub, Bool.or_eq_true]
      exact Or.inr (ih hn)

theorem containsSub_self (n : List Char) : containsSub n n = true := by
  cases n with
  | nil => rfl
  | cons a as => simp [containsSub, startsWithL_refl]

theorem containsSub_append_left (x n : List Char) :
    containsSub n (x ++ n) = true := by
  induction x with
  | nil => simpa using containsSub_self n
  | cons a as ih =>
    simp only [List.cons_append, containsSub, Bool.or_eq_true]
    exact Or.inr ih

theorem data_append (s t : String) : (s ++ t).data = s.data ++ t.data := by
  cases s; cases t; rfl

theorem strIncludes_append_right (h t n : String)
    (hn : strIncludes h n = true) : strIncludes (h ++ t) n = true := by
  unfold strIncludes at hn ⊢
  rw [data_append]
  exact containsSub_append_right n.data h.data t.data hn

theorem strIncludes_append_left (x n : String) :
    strIncludes (x ++ n) n = true := by
  unfold strIncludes
  rw [data_append]
  exact containsSub_append_left x.data n.data

theorem strIncludes_self (s : String) : strIncludes s s = true :=
  containsSub_self s.data

theorem append_ne_empty_left (c x : String) (h : c ≠ "") : c ++ x ≠ "" := by
  intro hc
  apply h
  have hd : (c ++ x).data = ("" : String).data := by rw [hc]
  rw [data_append] at hd
  have : c.data = [] := (List.append_eq_nil.mp hd).1
  cases c
  simp only [String.data] at this
  simp [this]

/-! ## Ignore-file merge (`PythonInitVSCodeStep.ts`)

The file system is made explicit: each function receives the current content
of its target file (`none` = the file does not exist) and returns the content
of the file after the call together with a flag recording whether
`fse.writeFile` was invoked. -/

/-- One iteration of the `for (const line of lines)` loop in
`ensureGitIgnoreContents`: append `${os.EOL}${line}` when the current content
does not `include` the line, and raise the write flag. -/
def mergeStep (eol : String) (acc : String × Bool) (line : String) : String × Bool :=
  if strIncludes acc.1 line then acc else (acc.1 ++ (eol ++ line), true)

/-- `ensureGitIgnoreContents(projectPath, lines)`: no-op when `.gitignore`
does not exist; otherwise append each missing line and write back only when
at least one line was added.  Returns (content after the call, whether
`fse.writeFile` ran). -/
def ensureGitIgnoreContents (eol : String) (lines : List String) :
    Option String → Option String × Bool
  | none => (none, false)
  | some c0 =>
    let r := lines.foldl (mergeStep eol) (c0, false)
    if r.2 then (some r.1, true) else (some c0, false)

/-- `ensureVenvInFuncIgnore(projectPath, venvName)`: read `.funcignore` if it
exists; when its content is truthy (nonempty) and does not `include` the venv
name, append `${os.EOL}${venvName}`; when the content is still falsy
(missing file or empty string), replace it by the venv name; finally always
call `fse.writeFile`.  Returns (content after the call, whether
`fse.writeFile` ran — always `true`). -/
def ensureVenvInFuncIgnore (eol venvName : String) (file : Option String) :
    Option String × Bool :=
  let contents1 : Option String :=
    match file with
    | none => none
    | some c =>
      if c ≠ "" && !(strIncludes c venvName) then some (c ++ (eol ++ venvName))
      else some c
  let contents2 : String :=
    match contents1 with
    | none => venvName
    | some c => if c = "" then venvName else c
  (some contents2, true)

theorem foldl_mergeStep_flag (eol : String) (lines : List String)
    (acc : String × Bool) (h : acc.2 = true) :
    (lines.foldl (mergeStep eol) acc).2 = true := by
  induction lines generalizing acc with
  | nil => simpa using h
  | cons l ls ih =>
    simp only [List.foldl_cons]
    apply ih
    unfold mergeStep
    by_cases hc : strIncludes acc.1 l = true
    · simpa [hc] using h
    · simp [hc]

theorem foldl_mergeStep_keeps (eol : String) (lines : List String)
    (acc : String × Bool) (l : String) (h : strIncludes acc.1 l = true) :
    strIncludes (lines.foldl (mergeStep eol) acc).1 l = true := by
  induction lines generalizing acc with
  | nil => simpa using h
  | cons x xs ih =>
    simp only [List.foldl_cons]
    apply ih
    unfold mergeStep
    by_cases hc : strIncludes acc.1 x = true
    · simpa [hc] using h
    · simpa [hc] using strIncludes_append_right acc.1 (eol ++ x) l h

theorem foldl_mergeStep_mem (eol : String) (lines : List String)
    (acc : String × Bool) (l : String) (h : l ∈ lines) :
    strIncludes (lines.foldl (mergeStep eol) acc).1 l = true := by
  induction lines generalizing acc with
  | nil => cases h
  | cons x xs ih =>
    simp only [List.foldl_cons]
    rcases List.mem_cons.mp h with hx | hx
    · subst hx
      apply foldl_mergeStep_keeps
      unfold mergeStep
      by_cases hc : strIncludes acc.1 l = true
      · simp [hc]
      · have : acc.1 ++ (eol ++ l) = (acc.1 ++ eol) ++ l := by
          rw [String.append_assoc]
        simpa [hc, this] using strIncludes_append_left (acc.1 ++ eol) l
    · exact ih _ hx

theorem foldl_mergeStep_noop (eol : String) (lines : List String)
    (acc : String × Bool) (h : ∀ l ∈ lines, strIncludes acc.1 l = true) :
    lines.foldl (mergeStep eol) acc = acc := by
  induction lines generalizing acc with
  | nil => rfl
  | cons x xs ih =>
    simp only [List.foldl_cons]
    have hx : strIncludes acc.1 x = true := h x (List.mem_cons_self x xs)
    have hstep : mergeStep eol acc x = acc := by
      unfold mergeStep; simp [hx]
    rw [hstep]
    exact ih acc (fun l hl => h l (List.mem_cons_of_mem x hl))

theorem foldl_mergeStep_false (eol : String) (lines : List String)
    (acc : String × Bool) (h : (lines.foldl (mergeStep eol) acc).2 = false) :
    ∀ l ∈ lines, strIncludes acc.1 l = true := by
  induction lines generalizing acc with
  | nil => intro l hl; cases hl
  | cons x xs ih =>
    intro l hl
    simp only [List.foldl_cons] at h
    by_cases hx : strIncludes acc.1 x = true
    · have hstep : mergeStep eol acc x = acc := by
        unfold mergeStep; simp [hx]
      rw [hstep] at h
      rcases List.mem_cons.mp hl with h1 | h1
      · subst h1; exact hx
      · exact ih acc h l h1
    · exfalso
      have hstep : mergeStep eol acc x = (acc.1 ++ (eol ++ x), true) := by
        unfold mergeStep; simp [hx]
      rw [hstep] at h
      have := foldl_mergeStep_flag eol xs (acc.1 ++ (eol ++ x), true) rfl
      rw [h] at this
      cases this

/-- After one run of `ensureGitIgnoreContents` on an existing file, every
requested line is included in the resulting content. -/
theorem ensureGitIgnoreContents_all_included (eol : String) (lines : List String)
    (c0 : String) (l : String) (hl : l ∈ lines) :
    ∀ c1, (ensureGitIgnoreContents eol lines (some c0)).1 = some c1 →
      strIncludes c1 l = true := by
  intro c1 h1
  unfold ensureGitIgnoreContents at h1
  by_cases hw : (lines.foldl (mergeStep eol) (c0, false)).2 = true
  · simp only [hw, if_true, Option.some.injEq] at h1
    rw [← h1]
    exact foldl_mergeStep_mem eol lines (c0, false) l hl
  · simp only [hw] at h1
    simp only [Bool.false_eq_true, if_false, Option.some.injEq] at h1
    rw [← h1]
    exact foldl_mergeStep_false eol lines (c0, false)
      (Bool.not_eq_true _ ▸ by simpa using hw) l hl

/-- The content written by one run of `ensureVenvInFuncIgnore` always
includes the venv name, and is empty only when the venv name itself is
empty. -/
theorem ensureVenvInFuncIgnore_result (eol venvName : String) (f : Option String) :
    ∃ c1, (ensureVenvInFuncIgnore eol venvName f).1 = some c1 ∧
      strIncludes c1 venvName = true ∧ (c1 = "" → venvName = "") := by
  unfold ensureVenvInFuncIgnore
  cases f with
  | none =>
    refine ⟨venvName, rfl, strIncludes_self venvName, ?_⟩
    intro h; exact h
  | some c =>
    by_cases hcond : (c ≠ "" && !(strIncludes c venvName)) = true
    · have hc : c ≠ "" := by
        rcases Bool.and_eq_true_iff.mp hcond with ⟨h1, _⟩
        simpa using h1
      have hne : c ++ (eol ++ venvName) ≠ "" := append_ne_empty_left c _ hc
      have hni : strIncludes c venvName = false := by
        have h2 := (Bool.and_eq_true_iff.mp hcond).2
        simpa using h2
      refine ⟨c ++ (eol ++ venvName), ?_, ?_, ?_⟩
      · simp [hc, hni, hne]
      · have : c ++ (eol ++ venvName) = (c ++ eol) ++ venvName := by
          rw [String.append_assoc]
        rw [this]
        exact strIncludes_append_left (c ++ eol) venvName
      · intro h; exact absurd h hne
    · by_cases hce : c = ""
      · refine ⟨venvName, ?_, strIncludes_self venvName, fun h => h⟩
        simp [hcond, hce]
      · have hinc : strIncludes c venvName = true := by
          by_contra hni
          have hni2 : strIncludes c venvName = false := Bool.eq_false_iff.mpr hni
          apply hcond
          simp [hce, hni2]
        refine ⟨c, ?_, hinc, fun h => absurd h hce⟩
        simp [hce, hinc]

/-- Running `ensureVenvInFuncIgnore` on content that already includes the
venv name (and is empty only if the name is) rewrites the same content. -/
theorem ensureVenvInFuncIgnore_stable (eol venvName c1 : String)
    (hinc : strIncludes c1 venvName = true) (hemp : c1 = "" → venvName = "") :
    ensureVenvInFuncIgnore eol venvName (some c1) = (some c1, true) := by
  unfold ensureVenvInFuncIgnore
  have hcond : (c1 ≠ "" && !(strIncludes c1 venvName)) = false := by
    simp [hinc]
  by_cases hce : c1 = ""
  · have hv : venvName = "" := hemp hce
    simp [hce, hv, hinc]
  · simp [hce, hinc]

/-- C1 (counterexample): on the `.funcignore` side the second run is not
write-free — `ensureVenvInFuncIgnore` calls `fse.writeFile`
unconditionally, so with project venv name "env" and an initially missing
file, the second invocation still performs a write (of identical content),
refuting "the second run never mutates the file". -/
theorem C1_counterexample :
    ¬ ((ensureVenvInFuncIgnore "\n" "env"
        (ensureVenvInFuncIgnore "\n" "env" none).1).2 = false) := by
  intro h
  simp [ensureVenvInFuncIgnore] at h

/-- C1 (amended): the ignore-file merges are idempotent on file content —
a second run of `ensureGitIgnoreContents` with the same inputs leaves the
content identical and performs no write, and a second run of
`ensureVenvInFuncIgnore` with the same inputs leaves the content identical
(though it unconditionally rewrites the file with that same content). -/
theorem C1_idempotent (eol venvName : String) (lines : List String)
    (f g : Option String) :
    (ensureGitIgnoreContents eol lines
        (ensureGitIgnoreContents eol lines f).1 =
      ((ensureGitIgnoreContents eol lines f).1, false)) ∧
    ((ensureVenvInFuncIgnore eol venvName
        (ensureVenvInFuncIgnore eol venvName g).1).1 =
      (ensureVenvInFuncIgnore eol venvName g).1) := by
  constructor
  · cases f with
    | none => rfl
    | some c0 =>
      rcases hsnd : (ensureGitIgnoreContents eol lines (some c0)).1 with _ | c1
      · exfalso
        unfold ensureGitIgnoreContents at hsnd
        by_cases hw : (lines.foldl (mergeStep eol) (c0, false)).2 = true
        · simp [hw] at hsnd
        · simp [hw] at hsnd
      · have hall : ∀ l ∈ lines, strIncludes c1 l = true := fun l hl =>
          ensureGitIgnoreContents_all_included eol lines c0 l hl c1 hsnd
        have hnoop := foldl_mergeStep_noop eol lines (c1, false) (by simpa using hall)
        unfold ensureGitIgnoreContents
        simp [hnoop]
  · rcases ensureVenvInFuncIgnore_result eol venvName g with ⟨c1, h1, hinc, hemp⟩
    rw [h1, ensureVenvInFuncIgnore_stable eol venvName c1 hinc hemp]

/-! ## `SlotTreeItemBase` data model

Remote calls are call-indexed response streams; the node state carries one
fetch counter per endpoint so that "number of remote fetches issued" is
observable.  `tryParseFuncVersion` (from `FuncVersion.ts`) and
`parseHostJson` (from `funcConfig/host.ts`) are not under `src/`, so they
stay abstract functions supplied by the environment. -/

/-- Modelled from the spec: the known runtime-version enumeration of
`FuncVersion.ts` (not in src/); its exact constructors are irrelevant to the
claims.  The enum's values are nonempty strings in the source, so every
`FuncVersion` is JavaScript-truthy. -/
inductive FuncVersion
  | v1
  | v2
  | v3
deriving DecidableEq, Repr

/-- Modelled from the spec: the hard-coded default version `latestGAVersion`
of `FuncVersion.ts` (not in src/). -/
def latestGAVersion : FuncVersion := FuncVersion.v3

/-- A `WebSiteManagementModels.StringDictionary` response: `properties` may
be absent, otherwise it is a key/value map. -/
structure StringDictionary where
  properties : Option (List (String × String))
deriving DecidableEq

/-- JavaScript property access `obj.key` on a map: `undefined` when the key
is missing. -/
def lookupProp (props : List (String × String)) (key : String) : Option String :=
  (props.find? (fun p => p.1 = key)).map (fun p => p.2)

/-- A hosting-plan SKU: `tier` may be absent. -/
structure Sku where
  tier : Option String
deriving DecidableEq

/-- A `WebSiteManagementModels.AppServicePlan`: `sku` may be absent. -/
structure AppServicePlan where
  sku : Option Sku
deriving DecidableEq

/-- Modelled from the spec: the normalized host-configuration object
produced by `parseHostJson` (`funcConfig/host.ts`, not in src/); opaque
here. -/
structure IParsedHostJson where
  id : Nat
deriving DecidableEq

/-- The remote-client capability set consumed by a node, as call-indexed
response streams (`Except Unit α` = the call either returns `α` or throws).
`getHostSettings` folds `getKuduClient` + `functionModel.getHostSettings`
into one fetch event: an error means either call threw.  `getSiteConfig` /
`getSourceControl` are modelled on their success path (their failures
propagate out of `loadMoreChildrenImpl` and no claim concerns them). -/
structure RemoteEnv where
  listApplicationSettings : Nat → Except Unit StringDictionary
  getHostSettings : Nat → Except Unit String
  getAppServicePlan : Nat → Except Unit (Option AppServicePlan)
  getState : Nat → Except Unit String
  getSiteConfig : Nat → String
  getSourceControl : Nat → String
  tryParseFuncVersion : Option String → Option FuncVersion
  parseHostJson : Option String → FuncVersion → IParsedHostJson

/-- The mutable fields of a `SlotTreeItemBase` node, plus per-endpoint fetch
counters and a freshness counter (`nextId`) used to give lazily created
child tree items an identity, so "reuses the existing instance" is
expressible.  `deploymentsNode` records the site-config / source-control
payloads it was built from together with its creation id. -/
structure SlotState where
  state : Option String
  cachedVersion : Option FuncVersion
  cachedHostJson : Option IParsedHostJson
  cachedIsConsumption : Option Bool
  functionsTreeItem : Option Nat
  proxiesTreeItem : Option Nat
  deploymentsNode : Option (String × String × Nat)
  nextId : Nat
  appSettingsFetches : Nat
  hostFetches : Nat
  planFetches : Nat
  stateFetches : Nat
  configFetches : Nat
deriving DecidableEq

/-- The node right after the constructor ran: `_state` comes from
`client.initialState`, every cache and lazily created child is unset; the
app-settings, site-files and log-files children exist (they are created in
the constructor and carry no identity we need to track). -/
def initialState (initState : Option String) : SlotState :=
  { state := initState
    cachedVersion := none
    cachedHostJson := none
    cachedIsConsumption := none
    functionsTreeItem := none
    proxiesTreeItem := none
    deploymentsNode := none
    nextId := 0
    appSettingsFetches := 0
    hostFetches := 0
    planFetches := 0
    stateFetches := 0
    configFetches := 0 }

/-- `refreshImpl()`: clear the three metadata caches, then re-fetch `state`,
absorbing any failure into the `'Unknown'` sentinel.  (Clearing the caches
does not touch the fetch counters, so the `getState` call is indexed by the
incoming `stateFetches`.) -/
def refreshImpl (env : RemoteEnv) (s : SlotState) : SlotState :=
  match env.getState s.stateFetches with
  | Except.ok st =>
    { s with cachedVersion := none, cachedHostJson := none,
             cachedIsConsumption := none, state := some st,
             stateFetches := s.stateFetches + 1 }
  | Except.error _ =>
    { s with cachedVersion := none, cachedHostJson := none,
             cachedIsConsumption := none, state := some "Unknown",
             stateFetches := s.stateFetches + 1 }

/-- `getVersion()`: serve from `_cachedVersion` when set; otherwise fetch
the application settings (counting the fetch even when it throws), try to
parse `FUNCTIONS_EXTENSION_VERSION`, fall back to `latestGAVersion`
(`version || latestGAVersion`: every parsed version is truthy), and cache
the result. -/
def getVersion (env : RemoteEnv) (s : SlotState) : FuncVersion × SlotState :=
  match s.cachedVersion with
  | some v => (v, s)
  | none =>
    let fetched : Option FuncVersion × SlotState :=
      match env.listApplicationSettings s.appSettingsFetches with
      | Except.ok d =>
        (env.tryParseFuncVersion
          (d.properties.bind (fun ps => lookupProp ps "FUNCTIONS_EXTENSION_VERSION")),
         { s with appSettingsFetches := s.appSettingsFetches + 1 })
      | Except.error _ => (none, { s with appSettingsFetches := s.appSettingsFetches + 1 })
    let result := fetched.1.getD latestGAVersion
    (result, { fetched.2 with cachedVersion := some result })

/-- `getHostJson()`: serve from `_cachedHostJson` when set (`if (!result)`:
a parsed host-json object is always truthy); otherwise fetch the raw host
settings best-effort (`data` stays `undefined` on failure), resolve the
version via `getVersion`, parse, and cache. -/
def getHostJson (env : RemoteEnv) (s : SlotState) : IParsedHostJson × SlotState :=
  match s.cachedHostJson with
  | some h => (h, s)
  | none =>
    let fetched : Option String × SlotState :=
      match env.getHostSettings s.hostFetches with
      | Except.ok d => (some d, { s with hostFetches := s.hostFetches + 1 })
      | Except.error _ => (none, { s with hostFetches := s.hostFetches + 1 })
    let vs := getVersion env fetched.2
    let result := env.parseHostJson fetched.1 vs.1
    (result, { vs.2 with cachedHostJson := some result })

/-- `toLowerCase()` as an explicit character map (ASCII-faithful), kept
kernel-computable. -/
def strToLower (s : String) : String :=
  ⟨s.data.map Char.toLower⟩

/-- `!asp || !asp.sku || !asp.sku.tier || asp.sku.tier.toLowerCase() ===
'dynamic'` — note `!asp.sku.tier` is JavaScript truthiness, so an *empty*
tier string also counts as consumption. -/
def isConsumptionOfPlan (asp : Option AppServicePlan) : Bool :=
  match asp with
  | none => true
  | some p =>
    match p.sku with
    | none => true
    | some sku =>
      match sku.tier with
      | none => true
      | some t => t = "" || strToLower t = "dynamic"

/-- `getIsConsumption()`: serve from `_cachedIsConsumption` when set;
otherwise fetch the hosting plan, defaulting to `true` when the fetch
throws, and cache the result. -/
def getIsConsumption (env : RemoteEnv) (s : SlotState) : Bool × SlotState :=
  match s.cachedIsConsumption with
  | some b => (b, s)
  | none =>
    let fetched : Bool × SlotState :=
      match env.getAppServicePlan s.planFetches with
      | Except.ok asp => (isConsumptionOfPlan asp, { s with planFetches := s.planFetches + 1 })
      | Except.error _ => (true, { s with planFetches := s.planFetches + 1 })
    (fetched.1, { fetched.2 with cachedIsConsumption := some fetched.1 })

/-- A child tree item of the node.  The lazily created ones carry the
creation id assigned by `SlotState.nextId`; the deployments child also
carries the site-config and source-control payloads it was built from. -/
inductive Child
  | functions (id : Nat)
  | appSettings
  | siteFiles
  | logFiles
  | deployments (siteConfig sourceControl : String) (id : Nat)
  | proxies (id : Nat)
deriving DecidableEq, Repr

/-- `loadMoreChildrenImpl()`: fetch site config and source control, build a
fresh `DeploymentsTreeItem` from them on every call, create the functions
and proxies children only when absent, and return the fixed six-element
list. -/
def loadMoreChildrenImpl (env : RemoteEnv) (s : SlotState) : List Child × SlotState :=
  let siteConfig := env.getSiteConfig s.configFetches
  let sourceControl := env.getSourceControl s.configFetches
  let s1 : SlotState := { s with configFetches := s.configFetches + 1 }
  let s2 : SlotState :=
    { s1 with deploymentsNode := some (siteConfig, sourceControl, s1.nextId),
              nextId := s1.nextId + 1 }
  let s3 : SlotState :=
    match s2.functionsTreeItem with
    | some _ => s2
    | none => { s2 with functionsTreeItem := some s2.nextId, nextId := s2.nextId + 1 }
  let s4 : SlotState :=
    match s3.proxiesTreeItem with
    | some _ => s3
    | none => { s3 with proxiesTreeItem := some s3.nextId, nextId := s3.nextId + 1 }
  ([Child.functions (s4.functionsTreeItem.getD 0),
    Child.appSettings,
    Child.siteFiles,
    Child.logFiles,
    Child.deployments siteConfig sourceControl
      ((s4.deploymentsNode.map (fun d => d.2.2)).getD 0),
    Child.proxies (s4.proxiesTreeItem.getD 0)], s4)

/-! ### `pickTreeItemImpl`

The context-value constants below live in `vscode-azureappservice` /
`ProxiesTreeItem.ts` / `ProxyTreeItem.ts`, none of which are under `src/`.
Modelled from the spec: they are opaque, pairwise-distinct marker strings;
`DeploymentTreeItem.contextValue` is a RegExp, represented by its source
text, and a `case` on it can only be hit by the very same RegExp (modelled
as source equality). -/

def appSettingsContextValue : String := "applicationSettings"

def appSettingContextValue : String := "applicationSettingItem"

def proxiesContextValue : String := "azFuncProxies"

def proxyContextValue : String := "azFuncProxy"

def proxyReadOnlyContextValue : String := "azFuncProxyReadOnly"

def deploymentsConnectedContextValue : String := "deploymentsConnected"

def deploymentsUnconnectedContextValue : String := "deploymentsUnconnected"

def deploymentContextValueSource : String := "deployment//"

/-- An expected context value passed to `pickTreeItemImpl`: a plain string
or a RegExp (represented by its source text). -/
inductive ContextValue
  | str (s : String)
  | regex (source : String)
deriving DecidableEq, Repr

/-- The external predicates used by `pickTreeItemImpl`:
`DeploymentTreeItem.contextValue.test(...)` (from `vscode-azureappservice`)
and `matchesAnyPart(..., Functions, Function, Bindings, Binding)` (from
`projectContextValues.ts`, not in src/). -/
structure PickEnv where
  deploymentRegexTest : String → Bool
  matchesAnyPartFn : String → Bool

/-- The deployments child currently stored on the node, if any. -/
def deploymentsChild (s : SlotState) : Option Child :=
  s.deploymentsNode.map (fun d => Child.deployments d.1 d.2.1 d.2.2)

/-- One round of the `switch` in `pickTreeItemImpl` for a single marker:
`some r` means the switch hit a `return r` (where `r` may itself be
`undefined` when the corresponding child was never created), `none` means
no case returned and the loop moves to the next marker. -/
def switchEval (env : PickEnv) (s : SlotState) : ContextValue → Option (Option Child)
  | ContextValue.str v =>
    if v = appSettingsContextValue ∨ v = appSettingContextValue then
      some (some Child.appSettings)
    else if v = proxiesContextValue ∨ v = proxyContextValue ∨
        v = proxyReadOnlyContextValue then
      some (s.proxiesTreeItem.map Child.proxies)
    else if v = deploymentsConnectedContextValue ∨
        v = deploymentsUnconnectedContextValue then
      some (deploymentsChild s)
    else if env.deploymentRegexTest v then
      some (deploymentsChild s)
    else
      none
  | ContextValue.regex r =>
    if r = deploymentContextValueSource then
      some (deploymentsChild s)
    else if env.matchesAnyPartFn r then
      some (s.functionsTreeItem.map Child.functions)
    else
      none

/-- `pickTreeItemImpl(expectedContextValues)`: walk the marker list in
order; the first marker on which the switch returns ends the call with that
(possibly undefined) child; if no marker applies, return `undefined`. -/
def pickTreeItemImpl (env : PickEnv) (s : SlotState) : List ContextValue → Option Child
  | [] => none
  | m :: ms =>
    match switchEval env s m with
    | some r => r
    | none => pickTreeItemImpl env s ms

/-- The metadata accessors a caller can interleave between two `refresh()`
calls. -/
inductive AccessorOp
  | version
  | hostJson
  | isConsumption
deriving DecidableEq, Repr

/-- Run one accessor for its state effect. -/
def runOp (env : RemoteEnv) (s : SlotState) : AccessorOp → SlotState
  | AccessorOp.version => (getVersion env s).2
  | AccessorOp.hostJson => (getHostJson env s).2
  | AccessorOp.isConsumption => (getIsConsumption env s).2

/-- Run a sequence of accessor calls. -/
def runOps (env : RemoteEnv) : List AccessorOp → SlotState → SlotState
  | [], s => s
  | op :: ops, s => runOps env ops (runOp env s op)

/-! ### Cache-machine lemmas -/

theorem getVersion_cached (env : RemoteEnv) (s : SlotState) (v : FuncVersion)
    (h : s.cachedVersion = some v) : getVersion env s = (v, s) := by
  unfold getVersion
  rw [h]

theorem getHostJson_cached (env : RemoteEnv) (s : SlotState) (hj : IParsedHostJson)
    (h : s.cachedHostJson = some hj) : getHostJson env s = (hj, s) := by
  unfold getHostJson
  rw [h]

theorem getIsConsumption_cached (env : RemoteEnv) (s : SlotState) (b : Bool)
    (h : s.cachedIsConsumption = some b) : getIsConsumption env s = (b, s) := by
  unfold getIsConsumption
  rw [h]

theorem getVersion_snd_none (env : RemoteEnv) (s : SlotState)
    (h : s.cachedVersion = none) :
    (getVersion env s).2 =
      { s with appSettingsFetches := s.appSettingsFetches + 1,
               cachedVersion := some (getVersion env s).1 } := by
  unfold getVersion
  rw [h]
  cases env.listApplicationSettings s.appSettingsFetches with
  | ok d => rfl
  | error e => rfl

theorem getIsConsumption_snd_none (env : RemoteEnv) (s : SlotState)
    (h : s.cachedIsConsumption = none) :
    (getIsConsumption env s).2 =
      { s with planFetches := s.planFetches + 1,
               cachedIsConsumption := some (getIsConsumption env s).1 } := by
  unfold getIsConsumption
  rw [h]
  cases env.getAppServicePlan s.planFetches with
  | ok asp => rfl
  | error e => rfl

theorem getHostJson_snd_none (env : RemoteEnv) (s : SlotState)
    (h : s.cachedHostJson = none) :
    (getHostJson env s).2 =
      { (getVersion env { s with hostFetches := s.hostFetches + 1 }).2 with
          cachedHostJson := some (getHostJson env s).1 } := by
  unfold getHostJson
  rw [h]
  cases env.getHostSettings s.hostFetches with
  | ok d => rfl
  | error e => rfl

/-- One metadata kind's cache discipline: its fetch counter sits at the
baseline while the cache is empty and never exceeds baseline + 1. -/
@[reducible] def fieldInv (base : Nat) (cache : SlotState → Option α)
    (ctr : SlotState → Nat) (s : SlotState) : Prop :=
  (cache s = none → ctr s = base) ∧ ctr s ≤ base + 1

theorem appInv_getVersion (env : RemoteEnv) (a0 : Nat) (s : SlotState)
    (h : fieldInv a0 SlotState.cachedVersion SlotState.appSettingsFetches s) :
    fieldInv a0 SlotState.cachedVersion SlotState.appSettingsFetches (getVersion env s).2 := by
  obtain ⟨h1, h2⟩ := h
  cases hv : s.cachedVersion with
  | some v => rw [getVersion_cached env s v hv]; exact ⟨h1, h2⟩
  | none =>
    rw [getVersion_snd_none env s hv]
    have ha0 := h1 hv
    refine ⟨(fun hx => nomatch hx), ?_⟩
    simp [ha0]

theorem getVersion_keeps_host_plan (env : RemoteEnv) (s : SlotState) :
    (getVersion env s).2.hostFetches = s.hostFetches ∧
    (getVersion env s).2.cachedHostJson = s.cachedHostJson ∧
    (getVersion env s).2.planFetches = s.planFetches ∧
    (getVersion env s).2.cachedIsConsumption = s.cachedIsConsumption := by
  cases hv : s.cachedVersion with
  | some v => rw [getVersion_cached env s v hv]; exact ⟨rfl, rfl, rfl, rfl⟩
  | none => rw [getVersion_snd_none env s hv]; exact ⟨rfl, rfl, rfl, rfl⟩

theorem getIsConsumption_keeps_others (env : RemoteEnv) (s : SlotState) :
    (getIsConsumption env s).2.appSettingsFetches = s.appSettingsFetches ∧
    (getIsConsumption env s).2.cachedVersion = s.cachedVersion ∧
    (getIsConsumption env s).2.hostFetches = s.hostFetches ∧
    (getIsConsumption env s).2.cachedHostJson = s.cachedHostJson := by
  cases hc : s.cachedIsConsumption with
  | some b => rw [getIsConsumption_cached env s b hc]; exact ⟨rfl, rfl, rfl, rfl⟩
  | none => rw [getIsConsumption_snd_none env s hc]; exact ⟨rfl, rfl, rfl, rfl⟩

/-- Between two invalidations, each metadata kind has issued its fetch
exactly when its cache is set. -/
def cacheInv (a0 h0 p0 : Nat) (s : SlotState) : Prop :=
  fieldInv a0 SlotState.cachedVersion SlotState.appSettingsFetches s ∧
  fieldInv h0 SlotState.cachedHostJson SlotState.hostFetches s ∧
  fieldInv p0 SlotState.cachedIsConsumption SlotState.planFetches s

theorem cacheInv_getVersion (env : RemoteEnv) (a0 h0 p0 : Nat) (s : SlotState)
    (h : cacheInv a0 h0 p0 s) : cacheInv a0 h0 p0 (getVersion env s).2 := by
  obtain ⟨ha, ⟨hh1, hh2⟩, ⟨hp1, hp2⟩⟩ := h
  obtain ⟨e1, e2, e3, e4⟩ := getVersion_keeps_host_plan env s
  refine ⟨appInv_getVersion env a0 s ha, ⟨?_, ?_⟩, ⟨?_, ?_⟩⟩
  · intro hx; rw [e1]; exact hh1 (e2 ▸ hx)
  · rw [e1]; exact hh2
  · intro hx; rw [e3]; exact hp1 (e4 ▸ hx)
  · rw [e3]; exact hp2

theorem cacheInv_getIsConsumption (env : RemoteEnv) (a0 h0 p0 : Nat) (s : SlotState)
    (h : cacheInv a0 h0 p0 s) : cacheInv a0 h0 p0 (getIsConsumption env s).2 := by
  obtain ⟨⟨ha1, ha2⟩, ⟨hh1, hh2⟩, ⟨hp1, hp2⟩⟩ := h
  obtain ⟨e1, e2, e3, e4⟩ := getIsConsumption_keeps_others env s
  refine ⟨⟨?_, ?_⟩, ⟨?_, ?_⟩, ?_⟩
  · intro hx; rw [e1]; exact ha1 (e2 ▸ hx)
  · rw [e1]; exact ha2
  · intro hx; rw [e3]; exact hh1 (e4 ▸ hx)
  · rw [e3]; exact hh2
  · cases hc : s.cachedIsConsumption with
    | some b =>
      rw [getIsConsumption_cached env s b hc]
      exact ⟨hp1, hp2⟩
    | none =>
      rw [getIsConsumption_snd_none env s hc]
      have hp0 := hp1 hc
      refine ⟨(fun hx => nomatch hx), ?_⟩
      simp [hp0]

theorem cacheInv_getHostJson (env : RemoteEnv) (a0 h0 p0 : Nat) (s : SlotState)
    (h : cacheInv a0 h0 p0 s) : cacheInv a0 h0 p0 (getHostJson env s).2 := by
  obtain ⟨ha, ⟨hh1, hh2⟩, hp⟩ := h
  cases hc : s.cachedHostJson with
  | some hj =>
    rw [getHostJson_cached env s hj hc]
    exact ⟨ha, ⟨hh1, hh2⟩, hp⟩
  | none =>
    rw [getHostJson_snd_none env s hc]
    set s1 : SlotState := { s with hostFetches := s.hostFetches + 1 } with hs1
    set t : SlotState := (getVersion env s1).2 with ht
    obtain ⟨e1, e2, e3, e4⟩ := getVersion_keeps_host_plan env s1
    have hh0 := hh1 hc
    have ha1 : fieldInv a0 SlotState.cachedVersion SlotState.appSettingsFetches s1 := ha
    have hav := appInv_getVersion env a0 s1 ha1
    refine ⟨⟨(fun hx => hav.1 hx), hav.2⟩, ⟨(fun hx => nomatch hx), ?_⟩, ⟨?_, ?_⟩⟩
    · show t.hostFetches ≤ h0 + 1
      rw [e1]
      show s.hostFetches + 1 ≤ h0 + 1
      omega
    · intro hx
      show t.planFetches = p0
      rw [e3]
      have hxx : t.cachedIsConsumption = none := hx
      rw [e4] at hxx
      exact hp.1 hxx
    · show t.planFetches ≤ p0 + 1
      rw [e3]
      exact hp.2

theorem cacheInv_runOps (env : RemoteEnv) (ops : List AccessorOp)
    (a0 h0 p0 : Nat) (s : SlotState) (h : cacheInv a0 h0 p0 s) :
    cacheInv a0 h0 p0 (runOps env ops s) := by
  induction ops generalizing s with
  | nil => exact h
  | cons op ops ih =>
    apply ih
    cases op with
    | version => exact cacheInv_getVersion env a0 h0 p0 s h
    | hostJson => exact cacheInv_getHostJson env a0 h0 p0 s h
    | isConsumption => exact cacheInv_getIsConsumption env a0 h0 p0 s h

theorem refreshImpl_fields (env : RemoteEnv) (s : SlotState) :
    (refreshImpl env s).cachedVersion = none ∧
    (refreshImpl env s).cachedHostJson = none ∧
    (refreshImpl env s).cachedIsConsumption = none ∧
    (refreshImpl env s).state =
      some (match env.getState s.stateFetches with
        | Except.ok st => st
        | Except.error _ => "Unknown") := by
  unfold refreshImpl
  cases env.getState s.stateFetches with
  | ok st => exact ⟨rfl, rfl, rfl, rfl⟩
  | error e => exact ⟨rfl, rfl, rfl, rfl⟩

theorem getHostJson_fetch_count (env : RemoteEnv) (s : SlotState)
    (h : s.cachedHostJson = none) :
    (getHostJson env s).2.hostFetches = s.hostFetches + 1 := by
  rw [getHostJson_snd_none env s h]
  show (getVersion env { s with hostFetches := s.hostFetches + 1 }).2.hostFetches
    = s.hostFetches + 1
  rw [(getVersion_keeps_host_plan env _).1]

/-- A "nothing ever succeeds" remote environment for concrete witnesses. -/
def trivEnv : RemoteEnv :=
  { listApplicationSettings := fun _ => Except.error ()
    getHostSettings := fun _ => Except.error ()
    getAppServicePlan := fun _ => Except.error ()
    getState := fun _ => Except.error ()
    getSiteConfig := fun _ => ""
    getSourceControl := fun _ => ""
    tryParseFuncVersion := fun _ => none
    parseHostJson := fun _ _ => ⟨0⟩ }

/-- C2: between two consecutive `refresh()` calls — i.e. along any sequence
of accessor calls started right after a `refreshImpl` — each of
`getVersion`, `getHostJson` and `getIsConsumption` issues at most one
remote fetch of its kind (application-settings, host-settings, hosting-plan
respectively), no matter how many times the accessors are called; and any
accessor finding its cache set returns the cached value without touching
the state. -/
theorem C2_at_most_one_fetch (env : RemoteEnv) (ops : List AccessorOp)
    (s : SlotState) :
    ((runOps env ops (refreshImpl env s)).appSettingsFetches ≤
        (refreshImpl env s).appSettingsFetches + 1 ∧
      (runOps env ops (refreshImpl env s)).hostFetches ≤
        (refreshImpl env s).hostFetches + 1 ∧
      (runOps env ops (refreshImpl env s)).planFetches ≤
        (refreshImpl env s).planFetches + 1) ∧
    (∀ (t : SlotState) (v : FuncVersion),
      t.cachedVersion = some v → getVersion env t = (v, t)) ∧
    (∀ (t : SlotState) (hj : IParsedHostJson),
      t.cachedHostJson = some hj → getHostJson env t = (hj, t)) ∧
    (∀ (t : SlotState) (b : Bool),
      t.cachedIsConsumption = some b → getIsConsumption env t = (b, t)) := by
  have hinv : cacheInv (refreshImpl env s).appSettingsFetches
      (refreshImpl env s).hostFetches (refreshImpl env s).planFetches
      (refreshImpl env s) :=
    ⟨⟨fun _ => rfl, Nat.le_succ _⟩, ⟨fun _ => rfl, Nat.le_succ _⟩,
     ⟨fun _ => rfl, Nat.le_succ _⟩⟩
  have h := cacheInv_runOps env ops _ _ _ _ hinv
  exact ⟨⟨h.1.2, h.2.1.2, h.2.2.2⟩, getVersion_cached env, getHostJson_cached env,
    getIsConsumption_cached env⟩

/-- Witness for C2 at a concrete environment, call sequence and state. -/
theorem C2_at_most_one_fetch_witness :
    ((runOps trivEnv
        [AccessorOp.version, AccessorOp.hostJson, AccessorOp.isConsumption,
         AccessorOp.version, AccessorOp.hostJson]
        (refreshImpl trivEnv (initialState none))).appSettingsFetches ≤
      (refreshImpl trivEnv (initialState none)).appSettingsFetches + 1) ∧
    getVersion trivEnv
        { initialState none with cachedVersion := some FuncVersion.v1 } =
      (FuncVersion.v1,
        { initialState none with cachedVersion := some FuncVersion.v1 }) :=
  ⟨(C2_at_most_one_fetch trivEnv
      [AccessorOp.version, AccessorOp.hostJson, AccessorOp.isConsumption,
       AccessorOp.version, AccessorOp.hostJson] (initialState none)).1.1,
   (C2_at_most_one_fetch trivEnv [] (initialState none)).2.1
      { initialState none with cachedVersion := some FuncVersion.v1 }
      FuncVersion.v1 rfl⟩

/-- C3: `refreshImpl` resets all three cached metadata fields together, and
from the resulting state the next call to each accessor performs a fresh
remote fetch of its kind (its fetch counter increases). -/
theorem C3_refresh_invalidates (env : RemoteEnv) (s : SlotState) :
    (refreshImpl env s).cachedVersion = none ∧
    (refreshImpl env s).cachedHostJson = none ∧
    (refreshImpl env s).cachedIsConsumption = none ∧
    (getVersion env (refreshImpl env s)).2.appSettingsFetches =
      (refreshImpl env s).appSettingsFetches + 1 ∧
    (getHostJson env (refreshImpl env s)).2.hostFetches =
      (refreshImpl env s).hostFetches + 1 ∧
    (getIsConsumption env (refreshImpl env s)).2.planFetches =
      (refreshImpl env s).planFetches + 1 := by
  obtain ⟨h1, h2, h3, _⟩ := refreshImpl_fields env s
  refine ⟨h1, h2, h3, ?_, ?_, ?_⟩
  · rw [getVersion_snd_none env _ h1]
  · exact getHostJson_fetch_count env _ h2
  · rw [getIsConsumption_snd_none env _ h3]

/-- C8: `refreshImpl` completes for every outcome of the remote `getState`
call (it is a total function of the response); on failure the state is set
to the `'Unknown'` sentinel, on success to the fetched state, and the three
metadata caches are invalidated in both cases. -/
theorem C8_refresh_absorbs_failure (env : RemoteEnv) (s : SlotState) :
    (refreshImpl env s).cachedVersion = none ∧
    (refreshImpl env s).cachedHostJson = none ∧
    (refreshImpl env s).cachedIsConsumption = none ∧
    (env.getState s.stateFetches = Except.error () →
      (refreshImpl env s).state = some "Unknown") ∧
    (∀ st, env.getState s.stateFetches = Except.ok st →
      (refreshImpl env s).state = some st) := by
  obtain ⟨h1, h2, h3, h4⟩ := refreshImpl_fields env s
  refine ⟨h1, h2, h3, ?_, ?_⟩
  · intro he
    rw [h4, he]
  · intro st hst
    rw [h4, hst]

/-- Witness for C8 at a concrete failing environment. -/
theorem C8_refresh_absorbs_failure_witness :
    (refreshImpl trivEnv (initialState (some "Running"))).state = some "Unknown" ∧
    (refreshImpl trivEnv (initialState (some "Running"))).cachedVersion = none :=
  ⟨(C8_refresh_absorbs_failure trivEnv (initialState (some "Running"))).2.2.2.1 rfl,
   (C8_refresh_absorbs_failure trivEnv (initialState (some "Running"))).1⟩

/-! ### C5 / C6: fallback policies -/

/-- The consumption predicate exactly as the claim words it: the plan is
consumption iff the plan is absent, or its SKU is absent, or its SKU tier
is absent or equals "dynamic" case-insensitively; a failed fetch counts as
consumption.  (Spec-side definition, to be compared with the code.) -/
def isConsumptionClaimed (r : Except Unit (Option AppServicePlan)) : Bool :=
  match r with
  | Except.error _ => true
  | Except.ok none => true
  | Except.ok (some p) =>
    match p.sku with
    | none => true
    | some sku =>
      match sku.tier with
      | none => true
      | some t => strToLower t = "dynamic"

/-- The claim amended by the counterexample: a present but *empty* tier
string also counts as consumption (JavaScript `!asp.sku.tier`). -/
def isConsumptionClaimedAmended (r : Except Unit (Option AppServicePlan)) : Bool :=
  match r with
  | Except.error _ => true
  | Except.ok none => true
  | Except.ok (some p) =>
    match p.sku with
    | none => true
    | some sku =>
      match sku.tier with
      | none => true
      | some t => t = "" || strToLower t = "dynamic"

/-- Environment whose hosting plan has a present but empty SKU tier. -/
def envEmptyTier : RemoteEnv :=
  { trivEnv with
    getAppServicePlan := fun _ =>
      Except.ok (some { sku := some { tier := some "" } }) }

/-- C5 (counterexample): with a hosting plan whose SKU tier is the empty
string — present, and not equal to "dynamic" — the code still reports a
consumption plan (JavaScript `!asp.sku.tier` is true on `""`), so
`getIsConsumption` does not coincide with the claimed
absent-or-"dynamic" condition. -/
theorem C5_counterexample :
    (getIsConsumption envEmptyTier (initialState none)).1 = true ∧
    isConsumptionClaimed (envEmptyTier.getAppServicePlan 0) = false := by
  constructor
  · rfl
  · decide

theorem isConsumptionOfPlan_eq_amended (asp : Option AppServicePlan) :
    isConsumptionOfPlan asp = isConsumptionClaimedAmended (Except.ok asp) := by
  cases asp with
  | none => rfl
  | some p =>
    cases hs : p.sku with
    | none => simp [isConsumptionOfPlan, isConsumptionClaimedAmended, hs]
    | some sku =>
      cases ht : sku.tier with
      | none => simp [isConsumptionOfPlan, isConsumptionClaimedAmended, hs, ht]
      | some t => simp [isConsumptionOfPlan, isConsumptionClaimedAmended, hs, ht]

/-- C5 (amended): on an empty cache, `getIsConsumption` returns `true` iff
the fetched hosting plan is absent, or its SKU is absent, or its SKU tier
is absent **or empty** or equals "dynamic" case-insensitively; and a failed
plan fetch yields `true` instead of an error. -/
theorem C5_consumption_condition (env : RemoteEnv) (s : SlotState)
    (h : s.cachedIsConsumption = none) :
    (getIsConsumption env s).1 =
      isConsumptionClaimedAmended (env.getAppServicePlan s.planFetches) ∧
    (env.getAppServicePlan s.planFetches = Except.error () →
      (getIsConsumption env s).1 = true) := by
  unfold getIsConsumption
  rw [h]
  cases henv : env.getAppServicePlan s.planFetches with
  | ok asp =>
    refine ⟨?_, ?_⟩
    · simpa using isConsumptionOfPlan_eq_amended asp
    · intro hx; cases hx
  | error e =>
    cases e
    exact ⟨rfl, fun _ => rfl⟩

/-- Witness for C5 (amended) at a concrete environment and state. -/
theorem C5_consumption_condition_witness :
    (getIsConsumption envEmptyTier (initialState none)).1 =
      isConsumptionClaimedAmended (envEmptyTier.getAppServicePlan
        (initialState none).planFetches) :=
  (C5_consumption_condition envEmptyTier (initialState none) rfl).1

theorem getVersion_fst_none (env : RemoteEnv) (s : SlotState)
    (h : s.cachedVersion = none) :
    (getVersion env s).1 =
      (match env.listApplicationSettings s.appSettingsFetches with
        | Except.error _ => none
        | Except.ok d =>
          env.tryParseFuncVersion
            (d.properties.bind
              (fun ps => lookupProp ps "FUNCTIONS_EXTENSION_VERSION"))).getD
        latestGAVersion := by
  unfold getVersion
  rw [h]
  cases env.listApplicationSettings s.appSettingsFetches with
  | ok d => rfl
  | error e => rfl

theorem getVersion_caches (env : RemoteEnv) (s : SlotState) :
    ((getVersion env s).2).cachedVersion = some (getVersion env s).1 := by
  cases hv : s.cachedVersion with
  | some v => rw [getVersion_cached env s v hv]; exact hv
  | none => rw [getVersion_snd_none env s hv]

/-- Environment whose application settings carry a parsable
`FUNCTIONS_EXTENSION_VERSION`. -/
def envVersioned : RemoteEnv :=
  { trivEnv with
    listApplicationSettings := fun _ =>
      Except.ok ⟨some [("FUNCTIONS_EXTENSION_VERSION", "~2")]⟩
    tryParseFuncVersion := fun o =>
      if o = some "~2" then some FuncVersion.v2 else none }

/-- C6: the value `getVersion` returns is always the one left in the cache;
and on an empty cache it is `latestGAVersion` whenever the settings fetch
fails or the version setting is absent/unparsable
(`tryParseFuncVersion` yields `none`), and the parsed version otherwise. -/
theorem C6_version_fallback (env : RemoteEnv) (s : SlotState) :
    ((getVersion env s).2).cachedVersion = some (getVersion env s).1 ∧
    (s.cachedVersion = none →
      ((env.listApplicationSettings s.appSettingsFetches = Except.error () →
          (getVersion env s).1 = latestGAVersion) ∧
        (∀ d, env.listApplicationSettings s.appSettingsFetches = Except.ok d →
          env.tryParseFuncVersion
              (d.properties.bind
                (fun ps => lookupProp ps "FUNCTIONS_EXTENSION_VERSION")) = none →
          (getVersion env s).1 = latestGAVersion) ∧
        (∀ d v, env.listApplicationSettings s.appSettingsFetches = Except.ok d →
          env.tryParseFuncVersion
              (d.properties.bind
                (fun ps => lookupProp ps "FUNCTIONS_EXTENSION_VERSION")) = some v →
          (getVersion env s).1 = v))) := by
  refine ⟨getVersion_caches env s, fun hv => ⟨?_, ?_, ?_⟩⟩
  · intro he
    rw [getVersion_fst_none env s hv, he]
    rfl
  · intro d hd hp
    rw [getVersion_fst_none env s hv, hd]
    show (env.tryParseFuncVersion
        (d.properties.bind
          (fun ps => lookupProp ps "FUNCTIONS_EXTENSION_VERSION"))).getD
      latestGAVersion = latestGAVersion
    rw [hp]
    rfl
  · intro d v hd hp
    rw [getVersion_fst_none env s hv, hd]
    show (env.tryParseFuncVersion
        (d.properties.bind
          (fun ps => lookupProp ps "FUNCTIONS_EXTENSION_VERSION"))).getD
      latestGAVersion = v
    rw [hp]
    rfl

/-- Witness for C6: the fallback on a failing fetch and the parsed version
on a parsable setting, at concrete environments. -/
theorem C6_version_fallback_witness :
    (getVersion trivEnv (initialState none)).1 = latestGAVersion ∧
    (getVersion envVersioned (initialState none)).1 = FuncVersion.v2 :=
  ⟨((C6_version_fallback trivEnv (initialState none)).2 rfl).1 rfl,
   ((C6_version_fallback envVersioned (initialState none)).2 rfl).2.2
     ⟨some [("FUNCTIONS_EXTENSION_VERSION", "~2")]⟩ FuncVersion.v2 rfl (by decide)⟩

/-! ## `PythonInitVSCodeStep.getTasks`

Constants below come from `constants.ts` / `extensionVariables.ts` (not in
src/): modelled from the spec as opaque, pairwise-distinct strings.
`venvUtils.convertToVenvPythonCommand` is also not in src/ and stays an
abstract function parameter. -/

def func : String := "func"

def hostStartCommand : String := "host start"

def extInstallCommand : String := "extensions install"

def extInstallTaskName : String := "func: extensions install"

def funcWatchProblemMatcher : String := "$func-watch"

def pythonVenvSetting : String := "pythonVenv"

def extPrefix : String := "azureFunctions"

/-- The three platforms the pip-install task carries commands for. -/
inductive Platform
  | macOS
  | windows
  | linux
deriving DecidableEq, Repr

/-- A `problemMatcher` field value: a named matcher or the empty array. -/
inductive ProblemMatcher
  | name (s : String)
  | empty
deriving DecidableEq, Repr

/-- A VS Code `TaskDefinition` as built by `getTasks` (absent fields are
`none`; the per-platform `osx`/`windows`/`linux` blocks are flattened to
their `command`). -/
structure TaskDef where
  type : Option String := none
  command : Option String := none
  label : Option String := none
  problemMatcher : Option ProblemMatcher := none
  isBackground : Option Bool := none
  dependsOn : Option String := none
  osxCommand : Option String := none
  windowsCommand : Option String := none
  linuxCommand : Option String := none
deriving DecidableEq, Repr

/-- JavaScript truthiness of `this._venvName : string | undefined`. -/
def optStrTruthy : Option String → Bool
  | none => false
  | some v => v ≠ ""

/-- `` `${config:${ext.prefix}.${pythonVenvSetting}}` ``. -/
def venvSettingReference : String :=
  "$\x7bconfig:" ++ extPrefix ++ "." ++ pythonVenvSetting ++ "\x7d"

/-- `PythonInitVSCodeStep.getTasks()`: a host-start task whose `dependsOn`
is the extension-install task name when `requiresFuncExtensionsInstall`,
else "pipInstall" when a venv was detected, else absent; plus, when a venv
was detected, optionally the extension-install task (depending on
"pipInstall") and the "pipInstall" shell task with three platform-specific
commands. -/
def getTasks (requiresFuncExtensionsInstall : Bool) (venvName : Option String)
    (convertToVenvPythonCommand : String → String → Platform → String) :
    List TaskDef :=
  let pipInstallLabel : String := "pipInstall"
  let dependsOn : Option String :=
    if requiresFuncExtensionsInstall then some extInstallTaskName
    else if optStrTruthy venvName then some pipInstallLabel
    else none
  let tasks : List TaskDef :=
    [{ type := some func, command := some hostStartCommand,
       problemMatcher := some (ProblemMatcher.name funcWatchProblemMatcher),
       isBackground := some true, dependsOn := dependsOn }]
  if optStrTruthy venvName then
    let tasks :=
      if requiresFuncExtensionsInstall then
        tasks ++ [{ type := some func, command := some extInstallCommand,
                    dependsOn := some pipInstallLabel,
                    problemMatcher := some ProblemMatcher.empty }]
      else tasks
    tasks ++
      [{ label := some pipInstallLabel, type := some "shell",
         osxCommand := some (convertToVenvPythonCommand
           "pip install -r requirements.txt" venvSettingReference Platform.macOS),
         windowsCommand := some (convertToVenvPythonCommand
           "pip install -r requirements.txt" venvSettingReference Platform.windows),
         linuxCommand := some (convertToVenvPythonCommand
           "pip install -r requirements.txt" venvSettingReference Platform.linux),
         problemMatcher := some ProblemMatcher.empty }]
  else tasks

/-- C4 (counterexample): with no venv but extension install required,
`getTasks` returns exactly one task, but that host-start task *does* carry
a dependency (`dependsOn` is the extension-install task name, although no
such task is emitted), refuting "host-start alone with no dependency
otherwise". -/
theorem C4_counterexample :
    (getTasks true none (fun c _ _ => c)).length = 1 ∧
    ((getTasks true none (fun c _ _ => c)).head?.map (fun t => t.dependsOn)) =
      some (some extInstallTaskName) := by
  constructor
  · rfl
  · rfl

/-- C4 (amended): `getTasks` always includes the host-start task first.
With a (truthy) venv and extension install required it returns host-start
(`dependsOn` = extension-install task name), the extension-install task
(`dependsOn` = "pipInstall"), and the "pipInstall" task (no `dependsOn`,
three platform-specific commands); with only a venv, host-start
(`dependsOn` = "pipInstall") plus the "pipInstall" task; with no venv,
host-start alone, whose `dependsOn` is the extension-install task name when
extension install is required (even though no such task is in the list) and
absent otherwise. -/
theorem C4_task_chain (venvName : Option String)
    (conv : String → String → Platform → String)
    (h : optStrTruthy venvName = true) :
    (getTasks true venvName conv =
      [{ type := some func, command := some hostStartCommand,
         problemMatcher := some (ProblemMatcher.name funcWatchProblemMatcher),
         isBackground := some true, dependsOn := some extInstallTaskName },
       { type := some func, command := some extInstallCommand,
         dependsOn := some "pipInstall",
         problemMatcher := some ProblemMatcher.empty },
       { label := some "pipInstall", type := some "shell",
         osxCommand := some (conv "pip install -r requirements.txt"
           venvSettingReference Platform.macOS),
         windowsCommand := some (conv "pip install -r requirements.txt"
           venvSettingReference Platform.windows),
         linuxCommand := some (conv "pip install -r requirements.txt"
           venvSettingReference Platform.linux),
         problemMatcher := some ProblemMatcher.empty }]) ∧
    (getTasks false venvName conv =
      [{ type := some func, command := some hostStartCommand,
         problemMatcher := some (ProblemMatcher.name funcWatchProblemMatcher),
         isBackground := some true, dependsOn := some "pipInstall" },
       { label := some "pipInstall", type := some "shell",
         osxCommand := some (conv "pip install -r requirements.txt"
           venvSettingReference Platform.macOS),
         windowsCommand := some (conv "pip install -r requirements.txt"
           venvSettingReference Platform.windows),
         linuxCommand := some (conv "pip install -r requirements.txt"
           venvSettingReference Platform.linux),
         problemMatcher := some ProblemMatcher.empty }]) ∧
    (getTasks false none conv =
      [{ type := some func, command := some hostStartCommand,
         problemMatcher := some (ProblemMatcher.name funcWatchProblemMatcher),
         isBackground := some true, dependsOn := none }]) ∧
    (getTasks true none conv =
      [{ type := some func, command := some hostStartCommand,
         problemMatcher := some (ProblemMatcher.name funcWatchProblemMatcher),
         isBackground := some true, dependsOn := some extInstallTaskName }]) := by
  refine ⟨?_, ?_, rfl, rfl⟩
  · unfold getTasks
    rw [h]
    rfl
  · unfold getTasks
    rw [h]
    rfl

/-- Witness for C4 (amended) at venv "env" and a concrete command
converter. -/
theorem C4_task_chain_witness :
    getTasks false (some "env") (fun c _ _ => c) =
      [{ type := some func, command := some hostStartCommand,
         problemMatcher := some (ProblemMatcher.name funcWatchProblemMatcher),
         isBackground := some true, dependsOn := some "pipInstall" },
       { label := some "pipInstall", type := some "shell",
         osxCommand := some "pip install -r requirements.txt",
         windowsCommand := some "pip install -r requirements.txt",
         linuxCommand := some "pip install -r requirements.txt",
         problemMatcher := some ProblemMatcher.empty }] :=
  (C4_task_chain (some "env") (fun c _ _ => c) (by decide)).2.1

/-! ### `pickTreeItemImpl` theorems -/

theorem pickTreeItemImpl_hit (env : PickEnv) (s : SlotState)
    (m : ContextValue) (ms : List ContextValue) (r : Option Child)
    (h : switchEval env s m = some r) :
    pickTreeItemImpl env s (m :: ms) = r := by
  simp only [pickTreeItemImpl]
  rw [h]

theorem pickTreeItemImpl_none (env : PickEnv) (s : SlotState)
    (ms : List ContextValue) (h : ∀ m ∈ ms, switchEval env s m = none) :
    pickTreeItemImpl env s ms = none := by
  induction ms with
  | nil => rfl
  | cons m ms ih =>
    simp only [pickTreeItemImpl]
    rw [h m (List.mem_cons_self m ms)]
    exact ih (fun x hx => h x (List.mem_cons_of_mem m hx))

theorem switchEval_proxiesStr (env : PickEnv) (s : SlotState) :
    switchEval env s (ContextValue.str proxiesContextValue) =
      some (s.proxiesTreeItem.map Child.proxies) := by
  simp only [switchEval]
  simp [proxiesContextValue, appSettingsContextValue, appSettingContextValue]

/-- C7: the marker list is evaluated in order and the first matching entry
of the fixed lookup table wins — for `["proxies", <functions regex>]` the
proxies child is returned no matter whether the functions matcher would
also accept; a marker hitting the table ends the walk with that child; and
when no marker applies the result is `undefined`. -/
theorem C7_pick_precedence (env : PickEnv) (s : SlotState) :
    (∀ (pid : Nat) (r : String), s.proxiesTreeItem = some pid →
      pickTreeItemImpl env s
          [ContextValue.str proxiesContextValue, ContextValue.regex r] =
        some (Child.proxies pid)) ∧
    (∀ (m : ContextValue) (ms : List ContextValue) (r : Option Child),
      switchEval env s m = some r → pickTreeItemImpl env s (m :: ms) = r) ∧
    (∀ ms : List ContextValue, (∀ m ∈ ms, switchEval env s m = none) →
      pickTreeItemImpl env s ms = none) := by
  refine ⟨?_, pickTreeItemImpl_hit env s, pickTreeItemImpl_none env s⟩
  intro pid r hp
  rw [pickTreeItemImpl_hit env s _ _ _ (switchEval_proxiesStr env s), hp]
  rfl

/-- Pick environment whose functions matcher accepts every regex. -/
def pickEnvAll : PickEnv :=
  { deploymentRegexTest := fun _ => false
    matchesAnyPartFn := fun _ => true }

/-- Node state in which proxies and functions children exist. -/
def sChildren : SlotState :=
  { initialState none with proxiesTreeItem := some 1, functionsTreeItem := some 2 }

/-- Witness for C7: even though the functions matcher accepts the second
marker, the proxies child (created with id 1) wins. -/
theorem C7_pick_precedence_witness :
    pickTreeItemImpl pickEnvAll sChildren
        [ContextValue.str proxiesContextValue, ContextValue.regex "functions"] =
      some (Child.proxies 1) :=
  (C7_pick_precedence pickEnvAll sChildren).1 1 "functions" rfl

/-- C10: before `loadMoreChildrenImpl` has ever run (proxies, deployments
and functions children still unset, as the constructor leaves them), any
marker list makes `pickTreeItemImpl` return either `undefined` — also for
markers that *do* match the proxies/deployments/functions table rows, since
the stored child is `undefined` — or the app-settings child, the only one
the constructor created. -/
theorem C10_pick_before_load (env : PickEnv) (s : SlotState)
    (markers : List ContextValue) (hf : s.functionsTreeItem = none)
    (hp : s.proxiesTreeItem = none) (hd : s.deploymentsNode = none) :
    pickTreeItemImpl env s markers = none ∨
    pickTreeItemImpl env s markers = some Child.appSettings := by
  induction markers with
  | nil => exact Or.inl rfl
  | cons m ms ih =>
    cases m with
    | str v =>
      simp only [pickTreeItemImpl, switchEval]
      by_cases h1 : v = appSettingsContextValue ∨ v = appSettingContextValue
      · rw [if_pos h1]
        exact Or.inr rfl
      · rw [if_neg h1]
        by_cases h2 : v = proxiesContextValue ∨ v = proxyContextValue ∨
            v = proxyReadOnlyContextValue
        · rw [if_pos h2, hp]
          exact Or.inl rfl
        · rw [if_neg h2]
          by_cases h3 : v = deploymentsConnectedContextValue ∨
              v = deploymentsUnconnectedContextValue
          · rw [if_pos h3]
            unfold deploymentsChild
            rw [hd]
            exact Or.inl rfl
          · rw [if_neg h3]
            by_cases h4 : env.deploymentRegexTest v = true
            · rw [if_pos h4]
              unfold deploymentsChild
              rw [hd]
              exact Or.inl rfl
            · rw [if_neg h4]
              exact ih
    | regex r =>
      simp only [pickTreeItemImpl, switchEval]
      by_cases h1 : r = deploymentContextValueSource
      · rw [if_pos h1]
        unfold deploymentsChild
        rw [hd]
        exact Or.inl rfl
      · rw [if_neg h1]
        by_cases h2 : env.matchesAnyPartFn r = true
        · rw [if_pos h2, hf]
          exact Or.inl rfl
        · rw [if_neg h2]
          exact ih

/-- Witness for C10 at the constructor state: a proxies marker yields no
child, an app-settings marker yields the app-settings child. -/
theorem C10_pick_before_load_witness :
    (pickTreeItemImpl pickEnvAll (initialState none)
        [ContextValue.str proxiesContextValue] = none ∨
      pickTreeItemImpl pickEnvAll (initialState none)
        [ContextValue.str proxiesContextValue] = some Child.appSettings) ∧
    (pickTreeItemImpl pickEnvAll (initialState none)
        [ContextValue.str appSettingsContextValue] = none ∨
      pickTreeItemImpl pickEnvAll (initialState none)
        [ContextValue.str appSettingsContextValue] = some Child.appSettings) :=
  ⟨C10_pick_before_load pickEnvAll (initialState none)
      [ContextValue.str proxiesContextValue] rfl rfl rfl,
    C10_pick_before_load pickEnvAll (initialState none)
      [ContextValue.str appSettingsContextValue] rfl rfl rfl⟩

/-- C9: every `loadMoreChildrenImpl` call returns the fixed six-element
ordered list functions, app settings, site files, log files, deployments,
proxies; across two consecutive calls the functions and proxies children
are the same instances (created at most once), while the deployments child
of the second call is built from the freshly fetched site configuration and
source control (fetch index advanced by one) and is a new instance. -/
theorem C9_loadChildren (env : RemoteEnv) (s : SlotState) :
    ∃ (fid pid did1 did2 : Nat),
      (loadMoreChildrenImpl env s).1 =
        [Child.functions fid, Child.appSettings, Child.siteFiles,
         Child.logFiles,
         Child.deployments (env.getSiteConfig s.configFetches)
           (env.getSourceControl s.configFetches) did1,
         Child.proxies pid] ∧
      (loadMoreChildrenImpl env (loadMoreChildrenImpl env s).2).1 =
        [Child.functions fid, Child.appSettings, Child.siteFiles,
         Child.logFiles,
         Child.deployments (env.getSiteConfig (s.configFetches + 1))
           (env.getSourceControl (s.configFetches + 1)) did2,
         Child.proxies pid] ∧
      did1 ≠ did2 := by
  cases hf : s.functionsTreeItem with
  | some f =>
    cases hp : s.proxiesTreeItem with
    | some p =>
      refine ⟨f, p, s.nextId, s.nextId + 1, ?_, ?_, by omega⟩
      · simp [loadMoreChildrenImpl, hf, hp]
      · simp [loadMoreChildrenImpl, hf, hp]
    | none =>
      refine ⟨f, s.nextId + 1, s.nextId, s.nextId + 2, ?_, ?_, by omega⟩
      · simp [loadMoreChildrenImpl, hf, hp]
      · simp [loadMoreChildrenImpl, hf, hp]
  | none =>
    cases hp : s.proxiesTreeItem with
    | some p =>
      refine ⟨s.nextId + 1, p, s.nextId, s.nextId + 2, ?_, ?_, by omega⟩
      · simp [loadMoreChildrenImpl, hf, hp]
      · simp [loadMoreChildrenImpl, hf, hp]
    | none =>
      refine ⟨s.nextId + 1, s.nextId + 2, s.nextId, s.nextId + 3, ?_, ?_, by omega⟩
      · simp [loadMoreChildrenImpl, hf, hp]
      · simp [loadMoreChildrenImpl, hf, hp]

end VSCodeAzureFunc
